import Mathlib

/-!
Verification development for the BPF endpoint manager
(`dataplane/linux/bpf_ep_mgr.go`) of the calico dataplane controller.

The Go code is shallowly embedded: the manager's maps become Lean
functions into `Option`, the reference-typed `set.Set` values become
boolean membership functions, and operations that panic in Go (nil-map /
nil-pointer dereferences) return `Option` with `none` standing for the
panic.  Loops become structural folds that mirror the source loop
nesting exactly (in particular the profile-attach loop of
`onWorkloadEndpointUpdate` is nested inside the tier loop, as in the
source).
-/

/-- `proto.WorkloadEndpointID`: identifies a workload endpoint. -/
structure WorkloadEndpointID where
  OrchestratorId : String
  WorkloadId : String
  EndpointId : String
deriving DecidableEq

/-- `proto.PolicyID`: a policy is identified by its tier and name. -/
structure PolicyID where
  Tier : String
  Name : String
deriving DecidableEq

/-- `proto.ProfileID`: a profile is identified by its name. -/
structure ProfileID where
  Name : String
deriving DecidableEq

/-- `proto.TierInfo`: a tier embedded in a workload endpoint, with its
ordered ingress and egress policy-name lists. -/
structure TierInfo where
  Name : String
  IngressPolicies : List String
  EgressPolicies : List String
deriving DecidableEq

/-- `proto.WorkloadEndpoint`: interface name, ordered tiers, ordered
profile names. -/
structure WorkloadEndpoint where
  Name : String
  Tiers : List TierInfo
  ProfileIds : List String
deriving DecidableEq

/-- `proto.Rule`: only the action is modelled; the manager treats rules
opaquely. -/
structure Rule where
  Action : String
deriving DecidableEq

/-- `proto.Policy`: inbound and outbound rule lists. -/
structure Policy where
  InboundRules : List Rule
  OutboundRules : List Rule
deriving DecidableEq

/-- `proto.Profile`: inbound and outbound rule lists. -/
structure Profile where
  InboundRules : List Rule
  OutboundRules : List Rule
deriving DecidableEq

/-- A `set.Set` of workload endpoint ids, as a boolean membership
function. -/
abbrev WESet := WorkloadEndpointID → Bool

/-- `set.Set.Add`. -/
def setAdd (s : WESet) (w : WorkloadEndpointID) : WESet :=
  fun x => if x = w then true else s x

/-- `set.Set.Discard`. -/
def setDiscard (s : WESet) (w : WorkloadEndpointID) : WESet :=
  fun x => if x = w then false else s x

/-- The empty `set.Set` (`set.New()`). -/
def setNew : WESet := fun _ => false

/-- One reverse-index mutation of the form
`polSet := m.index[k]; if polSet == nil { continue }; polSet.Discard(w)`.
Because Go sets are reference values, discarding through the retrieved
reference updates the map entry in place. -/
def indexDiscard {K : Type} [DecidableEq K] (idx : K → Option WESet) (k : K)
    (w : WorkloadEndpointID) : K → Option WESet :=
  match idx k with
  | none => idx
  | some s => fun k2 => if k2 = k then some (setDiscard s w) else idx k2

/-- One reverse-index mutation of the form
`if m.index[k] == nil { m.index[k] = set.New() }; m.index[k].Add(w)`. -/
def indexAdd {K : Type} [DecidableEq K] (idx : K → Option WESet) (k : K)
    (w : WorkloadEndpointID) : K → Option WESet :=
  fun k2 => if k2 = k then some (setAdd ((idx k).getD setNew) w) else idx k2

/-- The two policy-discard loops of one tier in the detach (prior
version) sub-step of `onWorkloadEndpointUpdate` / the loops of
`onWorkloadEnpdointRemove`: ingress policies first, then egress. -/
def detachTierPolicies (w : WorkloadEndpointID) (t : TierInfo)
    (idx : PolicyID → Option WESet) : PolicyID → Option WESet :=
  (t.EgressPolicies.foldl (fun acc pol => indexDiscard acc ⟨t.Name, pol⟩ w)
    (t.IngressPolicies.foldl (fun acc pol => indexDiscard acc ⟨t.Name, pol⟩ w) idx))

/-- The tier loop of the detach sub-step (`for _, t := range oldWL.Tiers`). -/
def detachPolicyEdges (w : WorkloadEndpointID) (tiers : List TierInfo)
    (idx : PolicyID → Option WESet) : PolicyID → Option WESet :=
  tiers.foldl (fun acc t => detachTierPolicies w t acc) idx

/-- The profile-discard loop of the detach sub-step
(`for _, profName := range oldWL.ProfileIds`), which in the source runs
after the tier loop, at top level. -/
def detachProfileEdges (w : WorkloadEndpointID) (profileIds : List String)
    (idx : ProfileID → Option WESet) : ProfileID → Option WESet :=
  profileIds.foldl (fun acc profName => indexDiscard acc ⟨profName⟩ w) idx

/-- The attach loops of `onWorkloadEndpointUpdate`
(`for _, t := range wl.Tiers { ... }`): per tier, ingress-policy adds,
then egress-policy adds, then — nested inside the tier loop, exactly as
in the source — the profile adds over `wl.ProfileIds`. -/
def attachLoop (w : WorkloadEndpointID) (profileIds : List String)
    (tiers : List TierInfo)
    (polIdx : PolicyID → Option WESet) (profIdx : ProfileID → Option WESet) :
    (PolicyID → Option WESet) × (ProfileID → Option WESet) :=
  tiers.foldl (fun acc t =>
    let polIdx1 := t.IngressPolicies.foldl
      (fun a pol => indexAdd a ⟨t.Name, pol⟩ w) acc.1
    let polIdx2 := t.EgressPolicies.foldl
      (fun a pol => indexAdd a ⟨t.Name, pol⟩ w) polIdx1
    let profIdx1 := profileIds.foldl
      (fun a profName => indexAdd a ⟨profName⟩ w) acc.2
    (polIdx2, profIdx1)) (polIdx, profIdx)

/-- The manager state: caches, reverse indices and the dirty-workload
set (the fields of `bpfEndpointManager` that the datamodel handlers
touch; interface state and static configuration are not needed by the
claims about these handlers). -/
structure bpfEndpointManager where
  wlEps : WorkloadEndpointID → Option WorkloadEndpoint
  policies : PolicyID → Option Policy
  profiles : ProfileID → Option Profile
  policiesToWorkloads : PolicyID → Option WESet
  profilesToWorkloads : ProfileID → Option WESet
  dirtyWorkloads : WorkloadEndpointID → Bool

/-- `newBPFEndpointManager`: empty caches, empty indices, empty dirty
set. -/
def newBPFEndpointManager : bpfEndpointManager :=
  { wlEps := fun _ => none
    policies := fun _ => none
    profiles := fun _ => none
    policiesToWorkloads := fun _ => none
    profilesToWorkloads := fun _ => none
    dirtyWorkloads := fun _ => false }

/-- `onWorkloadEndpointUpdate`: if a prior version is cached, detach its
policy edges (tier loop) and its profile edges from the reverse indices;
store the new endpoint; run the attach loops of the new version; mark
the endpoint dirty. -/
def onWorkloadEndpointUpdate (m : bpfEndpointManager)
    (wlID : WorkloadEndpointID) (wl : WorkloadEndpoint) : bpfEndpointManager :=
  let detached :=
    match m.wlEps wlID with
    | none => (m.policiesToWorkloads, m.profilesToWorkloads)
    | some oldWL =>
        (detachPolicyEdges wlID oldWL.Tiers m.policiesToWorkloads,
         detachProfileEdges wlID oldWL.ProfileIds m.profilesToWorkloads)
  let attached := attachLoop wlID wl.ProfileIds wl.Tiers detached.1 detached.2
  { m with
    wlEps := fun x => if x = wlID then some wl else m.wlEps x
    policiesToWorkloads := attached.1
    profilesToWorkloads := attached.2
    dirtyWorkloads := setAdd m.dirtyWorkloads wlID }

/-- `onWorkloadEnpdointRemove` (sic): looks up the cached endpoint —
when the id is absent the lookup yields a nil pointer and the
`wl.Tiers` range expression dereferences it, which panics; modelled as
`none`.  Otherwise: detach the cached version's policy edges (and only
those — the source has no profile loop here), erase the endpoint, mark
it dirty. -/
def onWorkloadEnpdointRemove (m : bpfEndpointManager)
    (wlID : WorkloadEndpointID) : Option bpfEndpointManager :=
  match m.wlEps wlID with
  | none => none
  | some wl =>
      some { m with
        policiesToWorkloads := detachPolicyEdges wlID wl.Tiers m.policiesToWorkloads
        wlEps := fun x => if x = wlID then none else m.wlEps x
        dirtyWorkloads := setAdd m.dirtyWorkloads wlID }

/-- `markPolicyUsersDirty`: add every member of the policy's
reverse-index set to the dirty set; absent index entry is a no-op. -/
def markPolicyUsersDirty (m : bpfEndpointManager) (id : PolicyID) :
    bpfEndpointManager :=
  match m.policiesToWorkloads id with
  | none => m
  | some wls => { m with dirtyWorkloads := fun e => m.dirtyWorkloads e || wls e }

/-- `markProfileUsersDirty`. -/
def markProfileUsersDirty (m : bpfEndpointManager) (id : ProfileID) :
    bpfEndpointManager :=
  match m.profilesToWorkloads id with
  | none => m
  | some wls => { m with dirtyWorkloads := fun e => m.dirtyWorkloads e || wls e }

/-- `onPolicyUpdate`: store the policy, then mark its users dirty. -/
def onPolicyUpdate (m : bpfEndpointManager) (polID : PolicyID)
    (policy : Policy) : bpfEndpointManager :=
  markPolicyUsersDirty
    { m with policies := fun k => if k = polID then some policy else m.policies k }
    polID

/-- `onPolicyRemove`: mark users dirty, then erase the policy cache
entry and the reverse-index entry. -/
def onPolicyRemove (m : bpfEndpointManager) (polID : PolicyID) :
    bpfEndpointManager :=
  let m1 := markPolicyUsersDirty m polID
  { m1 with
    policies := fun k => if k = polID then none else m1.policies k
    policiesToWorkloads := fun k => if k = polID then none else m1.policiesToWorkloads k }

/-- `onProfileUpdate`. -/
def onProfileUpdate (m : bpfEndpointManager) (profID : ProfileID)
    (profile : Profile) : bpfEndpointManager :=
  markProfileUsersDirty
    { m with profiles := fun k => if k = profID then some profile else m.profiles k }
    profID

/-- `onProfileRemove`. -/
def onProfileRemove (m : bpfEndpointManager) (profID : ProfileID) :
    bpfEndpointManager :=
  let m1 := markProfileUsersDirty m profID
  { m1 with
    profiles := fun k => if k = profID then none else m1.profiles k
    profilesToWorkloads := fun k => if k = profID then none else m1.profilesToWorkloads k }

/-- The datamodel message variants dispatched by `OnUpdate`. -/
inductive Msg where
  | wepUpdate (id : WorkloadEndpointID) (ep : WorkloadEndpoint)
  | wepRemove (id : WorkloadEndpointID)
  | polUpdate (id : PolicyID) (policy : Policy)
  | polRemove (id : PolicyID)
  | profUpdate (id : ProfileID) (profile : Profile)
  | profRemove (id : ProfileID)

/-- `OnUpdate`, restricted to the datamodel variants; `none` is a
handler panic. -/
def step (m : bpfEndpointManager) : Msg → Option bpfEndpointManager
  | .wepUpdate id ep => some (onWorkloadEndpointUpdate m id ep)
  | .wepRemove id => onWorkloadEnpdointRemove m id
  | .polUpdate id policy => some (onPolicyUpdate m id policy)
  | .polRemove id => some (onPolicyRemove m id)
  | .profUpdate id profile => some (onProfileUpdate m id profile)
  | .profRemove id => some (onProfileRemove m id)

/-- Run a finite sequence of dispatcher updates. -/
def run (m : bpfEndpointManager) : List Msg → Option bpfEndpointManager
  | [] => some m
  | msg :: rest =>
      match step m msg with
      | none => none
      | some m2 => run m2 rest

/-- Is a message an active-policy remove? -/
def isPolRemove : Msg → Bool
  | .polRemove _ => true
  | _ => false

/-- Is a message an active-profile remove? -/
def isProfRemove : Msg → Bool
  | .profRemove _ => true
  | _ => false

/-- Is a message a workload-endpoint remove? -/
def isWepRemove : Msg → Bool
  | .wepRemove _ => true
  | _ => false

/-- Membership in a reverse-index set: indexing an absent key yields a
nil set, which has no members. -/
def idxMem {K : Type} (idx : K → Option WESet) (k : K)
    (e : WorkloadEndpointID) : Bool :=
  match idx k with
  | none => false
  | some s => s e

/-- A tier declares a (tier, policy) edge for key `k` when the tier's
name is `k.Tier` and `k.Name` occurs in its ingress or egress policy
list. -/
def tierDeclares (t : TierInfo) (k : PolicyID) : Prop :=
  k.Tier = t.Name ∧ (k.Name ∈ t.IngressPolicies ∨ k.Name ∈ t.EgressPolicies)

instance (t : TierInfo) (k : PolicyID) : Decidable (tierDeclares t k) := by
  unfold tierDeclares; infer_instance

/-- A workload endpoint references policy `k` in some tier's ingress or
egress policy list. -/
def wepRefsPolicy (wl : WorkloadEndpoint) (k : PolicyID) : Prop :=
  ∃ t ∈ wl.Tiers, tierDeclares t k

/-- `PolDirection`: the Calico datamodel direction of policy. -/
inductive PolDirection where
  | PolDirnIngress
  | PolDirnEgress
deriving DecidableEq

export PolDirection (PolDirnIngress PolDirnEgress)

/-- `TCHook`: the hook to which a BPF program is attached, relative to
the host namespace. -/
inductive TCHook where
  | TCHookIngress
  | TCHookEgress
deriving DecidableEq

export TCHook (TCHookIngress TCHookEgress)

/-- `ToOrFromEp`. -/
inductive ToOrFromEp where
  | FromEp
  | ToEp
deriving DecidableEq

export ToOrFromEp (FromEp ToEp)

/-- The string value of a `ToOrFromEp` constant ("from" / "to"). -/
def ToOrFromEp.str : ToOrFromEp → String
  | FromEp => "from"
  | ToEp => "to"

/-- `EndpointType`. -/
inductive EndpointType where
  | EpTypeWorkload
  | EpTypeHost
  | EpTypeTunnel
deriving DecidableEq

export EndpointType (EpTypeWorkload EpTypeHost EpTypeTunnel)

/-- The string value of an `EndpointType` constant
("workload" / "host" / "tunnel"). -/
def EndpointType.str : EndpointType → String
  | EpTypeWorkload => "workload"
  | EpTypeHost => "host"
  | EpTypeTunnel => "tunnel"

/-- `CompileFlagHostEp`. -/
def CompileFlagHostEp : Nat := 1

/-- `CompileFlagIngress`. -/
def CompileFlagIngress : Nat := 2

/-- `CompileFlagTunnel`. -/
def CompileFlagTunnel : Nat := 4

/-- `CompileFlagCgroup`. -/
def CompileFlagCgroup : Nat := 8

/-- `BPFSectionName`: `fmt.Sprintf("calico_%s_%s_ep", fromOrTo, endpointType)`. -/
def BPFSectionName (endpointType : EndpointType) (fromOrTo : ToOrFromEp) : String :=
  "calico_" ++ fromOrTo.str ++ "_" ++ endpointType.str ++ "_ep"

/-- Insert one entry into the section-to-flags map. -/
def flagsMapSet (m : String → Option Nat) (k : String) (v : Nat) :
    String → Option Nat :=
  fun k2 => if k2 = k then some v else m k2

/-- `bpfSectionToFlags`, as populated by `init()` (six entries, in the
source's order). -/
def bpfSectionToFlags : String → Option Nat :=
  flagsMapSet (flagsMapSet (flagsMapSet (flagsMapSet (flagsMapSet (flagsMapSet
    (fun _ => none)
    (BPFSectionName EpTypeWorkload FromEp) 0)
    (BPFSectionName EpTypeWorkload ToEp) CompileFlagIngress)
    (BPFSectionName EpTypeHost FromEp) (CompileFlagHostEp ||| CompileFlagIngress))
    (BPFSectionName EpTypeHost ToEp) CompileFlagHostEp)
    (BPFSectionName EpTypeTunnel FromEp)
      (CompileFlagHostEp ||| CompileFlagIngress ||| CompileFlagTunnel))
    (BPFSectionName EpTypeTunnel ToEp) (CompileFlagHostEp ||| CompileFlagTunnel)

/-- `BPFSectionToFlags`: map lookup; the source panics on an unknown
section, modelled as `none`. -/
def BPFSectionToFlags (sec : String) : Option Nat :=
  bpfSectionToFlags sec

/-- `TCAttachPoint`.  `CompileFlags` carries the (possibly panicking)
`BPFSectionToFlags` lookup as an `Option`. -/
structure TCAttachPoint where
  Section : String
  Hook : TCHook
  Iface : String
  CompileFlags : Option Nat
deriving DecidableEq

/-- `calculateTCAttachPoint`: workload endpoints flip the policy
direction when choosing the hook, host endpoints keep it; `toOrFrom`
is `FromEp` exactly when the hook is ingress; the section name and the
flags are derived from those. -/
def calculateTCAttachPoint (endpointType : EndpointType)
    (policyDirection : PolDirection) (ifaceName : String) : TCAttachPoint :=
  let hook : TCHook :=
    if endpointType = EpTypeWorkload then
      if policyDirection = PolDirnIngress then TCHookEgress else TCHookIngress
    else
      if policyDirection = PolDirnIngress then TCHookIngress else TCHookEgress
  let toOrFrom : ToOrFromEp := if hook = TCHookIngress then FromEp else ToEp
  let sec := BPFSectionName endpointType toOrFrom
  { Section := sec
    Hook := hook
    Iface := ifaceName
    CompileFlags := BPFSectionToFlags sec }

/-- The directional policy-name list selected by `extractRules`
(`directionalPols := tier.IngressPolicies; if direction == PolDirnEgress
{ directionalPols = tier.EgressPolicies }`). -/
def directionalPolicies (tier : TierInfo) (direction : PolDirection) : List String :=
  if direction = PolDirnEgress then tier.EgressPolicies else tier.IngressPolicies

/-- The inner policy loop of `extractRules` for one tier: for each
directional policy name, look the policy up in the cache and take its
directional rule list.  An absent policy is a nil pointer whose rule
field is dereferenced — a panic, modelled as `none`. -/
def extractTierRules (m : bpfEndpointManager) (tier : TierInfo)
    (direction : PolDirection) : Option (List (List Rule)) :=
  (directionalPolicies tier direction).mapM (fun polName =>
    (m.policies ⟨tier.Name, polName⟩).map (fun pol =>
      if direction = PolDirnIngress then pol.InboundRules else pol.OutboundRules))

/-- The profile loop of `extractRules`: one entry per profile name, in
order, each entry the profile's directional rule list; an absent
profile is again a nil-pointer panic (`none`). -/
def extractProfileRules (m : bpfEndpointManager) (profileNames : List String)
    (direction : PolDirection) : Option (List (List Rule)) :=
  profileNames.mapM (fun profName =>
    (m.profiles ⟨profName⟩).map (fun prof =>
      if direction = PolDirnIngress then prof.InboundRules else prof.OutboundRules))

/-- The tier loop of `extractRules`: tiers whose directional list is
empty are skipped (`continue`); otherwise the tier's policy rule lists
are appended. -/
def extractTiersRules (m : bpfEndpointManager) (tiers2 : List TierInfo)
    (direction : PolDirection) : Option (List (List (List Rule))) :=
  match tiers2 with
  | [] => some []
  | tier :: rest =>
      if (directionalPolicies tier direction).isEmpty then
        extractTiersRules m rest direction
      else
        match extractTierRules m tier direction with
        | none => none
        | some pols => (extractTiersRules m rest direction).map (fun acc => pols :: acc)

/-- `extractRules`: the tier loop followed by the unconditional append
of the synthetic profiles tier. -/
def extractRules (m : bpfEndpointManager) (tiers2 : List TierInfo)
    (profileNames : List String) (direction : PolDirection) :
    Option (List (List (List Rule))) :=
  match extractTiersRules m tiers2 direction with
  | none => none
  | some allRules =>
      match extractProfileRules m profileNames direction with
      | none => none
      | some profs => some (allRules ++ [profs])

/-- The error value returned by a failed `tc` invocation. -/
inductive AttachError where
  | tcError
deriving DecidableEq

/-- The byte pattern `"Cannot find device"` searched for in the tc
combined output. -/
def cannotFindDevice : List Char := "Cannot find device".data

/-- The error handling of `AttachTCProgram`, as a function of whether
the `tc` command failed and of its combined output: a failure whose
output contains the interface-not-found indication is downgraded to
success (`none`); any other failure is returned; success returns the
nil error. -/
def AttachTCProgram (tcFailed : Bool) (combinedOutput : List Char) :
    Option AttachError :=
  if tcFailed then
    if cannotFindDevice.IsInfix combinedOutput then none
    else some AttachError.tcError
  else none

/-- The result pass of `applyProgramsToDirtyDataInterfaces`: iterating
the dirty set, an interface whose recorded error is nil is removed
(`set.RemoveItem`); one with an error stays dirty. -/
def applyDirtyResultPass (dirty : List String)
    (errs : String → Option AttachError) : List String :=
  dirty.filter (fun iface => (errs iface).isSome)

theorem setDiscard_setDiscard (s : WESet) (w : WorkloadEndpointID) :
    setDiscard (setDiscard s w) w = setDiscard s w := by
  funext x; by_cases h : x = w <;> simp [setDiscard, h]

theorem setAdd_setAdd (s : WESet) (w : WorkloadEndpointID) :
    setAdd (setAdd s w) w = setAdd s w := by
  funext x; by_cases h : x = w <;> simp [setAdd, h]

theorem setAdd_setDiscard (s : WESet) (w : WorkloadEndpointID) :
    setAdd (setDiscard s w) w = setAdd s w := by
  funext x; by_cases h : x = w <;> simp [setAdd, setDiscard, h]

theorem setAdd_of_mem {s : WESet} {w : WorkloadEndpointID} (h : s w = true) :
    setAdd s w = s := by
  funext x; by_cases hx : x = w <;> simp [setAdd, hx, h.symm]

theorem map_discard_map_discard (o : Option WESet) (w : WorkloadEndpointID) :
    (o.map (fun s => setDiscard s w)).map (fun s => setDiscard s w)
      = o.map (fun s => setDiscard s w) := by
  cases o <;> simp [setDiscard_setDiscard]

theorem map_discard_comp (o : Option WESet) (w : WorkloadEndpointID) :
    Option.map ((fun s => setDiscard s w) ∘ fun s => setDiscard s w) o
      = Option.map (fun s => setDiscard s w) o := by
  cases o <;> simp [setDiscard_setDiscard]

theorem indexDiscard_apply {K : Type} [DecidableEq K] (idx : K → Option WESet)
    (k : K) (w : WorkloadEndpointID) (k2 : K) :
    indexDiscard idx k w k2
      = if k2 = k then (idx k).map (fun s => setDiscard s w) else idx k2 := by
  unfold indexDiscard
  cases h : idx k with
  | none => by_cases hk : k2 = k <;> simp [hk, h]
  | some s => by_cases hk : k2 = k <;> simp [hk, h]

theorem indexAdd_apply {K : Type} [DecidableEq K] (idx : K → Option WESet)
    (k : K) (w : WorkloadEndpointID) (k2 : K) :
    indexAdd idx k w k2
      = if k2 = k then some (setAdd ((idx k).getD setNew) w) else idx k2 := rfl

theorem foldl_indexDiscard_apply {K : Type} [DecidableEq K] (mk : String → K)
    (w : WorkloadEndpointID) :
    ∀ (names : List String) (idx : K → Option WESet) (k : K),
    (names.foldl (fun acc nm => indexDiscard acc (mk nm) w) idx) k
      = if (∃ nm ∈ names, mk nm = k)
        then (idx k).map (fun s => setDiscard s w) else idx k
  | [], idx, k => by simp
  | nm :: rest, idx, k => by
      have ih := foldl_indexDiscard_apply mk w rest (indexDiscard idx (mk nm) w) k
      simp only [List.foldl_cons]
      rw [ih, indexDiscard_apply]
      by_cases h1 : mk nm = k <;> by_cases h2 : ∃ x ∈ rest, mk x = k <;>
        simp [h1, h2, Ne.symm, map_discard_comp]

theorem foldl_indexAdd_apply {K : Type} [DecidableEq K] (mk : String → K)
    (w : WorkloadEndpointID) :
    ∀ (names : List String) (idx : K → Option WESet) (k : K),
    (names.foldl (fun acc nm => indexAdd acc (mk nm) w) idx) k
      = if (∃ nm ∈ names, mk nm = k)
        then some (setAdd ((idx k).getD setNew) w) else idx k
  | [], idx, k => by simp
  | nm :: rest, idx, k => by
      have ih := foldl_indexAdd_apply mk w rest (indexAdd idx (mk nm) w) k
      simp only [List.foldl_cons]
      rw [ih, indexAdd_apply]
      by_cases h1 : mk nm = k <;> by_cases h2 : ∃ x ∈ rest, mk x = k <;>
        simp [h1, h2, Ne.symm, setAdd_setAdd]

theorem exists_mkPolicy_eq (tn : String) (names : List String) (k : PolicyID) :
    (∃ nm ∈ names, (⟨tn, nm⟩ : PolicyID) = k) ↔ (k.Tier = tn ∧ k.Name ∈ names) := by
  obtain ⟨kT, kN⟩ := k
  simp only [PolicyID.mk.injEq]
  constructor
  · rintro ⟨nm, hmem, h1, h2⟩
    subst h1; subst h2; exact ⟨rfl, hmem⟩
  · rintro ⟨h1, h2⟩
    subst h1
    exact ⟨kN, h2, rfl, rfl⟩

theorem exists_mkProfile_eq (names : List String) (q : ProfileID) :
    (∃ nm ∈ names, (⟨nm⟩ : ProfileID) = q) ↔ q.Name ∈ names := by
  obtain ⟨qN⟩ := q
  simp only [ProfileID.mk.injEq]
  constructor
  · rintro ⟨nm, hmem, h⟩
    subst h; exact hmem
  · intro h; exact ⟨qN, h, rfl⟩

theorem detachTierPolicies_apply (w : WorkloadEndpointID) (t : TierInfo)
    (idx : PolicyID → Option WESet) (k : PolicyID) :
    detachTierPolicies w t idx k
      = if tierDeclares t k then (idx k).map (fun s => setDiscard s w) else idx k := by
  unfold detachTierPolicies
  rw [foldl_indexDiscard_apply, foldl_indexDiscard_apply]
  by_cases hT : k.Tier = t.Name
  · by_cases hI : k.Name ∈ t.IngressPolicies <;> by_cases hE : k.Name ∈ t.EgressPolicies <;>
      simp [exists_mkPolicy_eq, tierDeclares, hT, hI, hE, map_discard_map_discard,
        map_discard_comp]
  · simp [exists_mkPolicy_eq, tierDeclares, hT]

theorem detachPolicyEdges_apply (w : WorkloadEndpointID) :
    ∀ (tiers : List TierInfo) (idx : PolicyID → Option WESet) (k : PolicyID),
    detachPolicyEdges w tiers idx k
      = if (∃ t ∈ tiers, tierDeclares t k)
        then (idx k).map (fun s => setDiscard s w) else idx k
  | [], idx, k => by simp [detachPolicyEdges]
  | t :: rest, idx, k => by
      have ih := detachPolicyEdges_apply w rest (detachTierPolicies w t idx) k
      unfold detachPolicyEdges at ih ⊢
      simp only [List.foldl_cons]
      rw [ih, detachTierPolicies_apply]
      by_cases h1 : tierDeclares t k <;> by_cases h2 : ∃ x ∈ rest, tierDeclares x k <;>
        simp [h1, h2, map_discard_comp]

theorem detachProfileEdges_apply (w : WorkloadEndpointID) (profileIds : List String)
    (idx : ProfileID → Option WESet) (q : ProfileID) :
    detachProfileEdges w profileIds idx q
      = if q.Name ∈ profileIds then (idx q).map (fun s => setDiscard s w) else idx q := by
  unfold detachProfileEdges
  rw [foldl_indexDiscard_apply]
  simp [exists_mkProfile_eq]

theorem attachTierPolicies_apply (w : WorkloadEndpointID) (t : TierInfo)
    (polIdx : PolicyID → Option WESet) (k : PolicyID) :
    (t.EgressPolicies.foldl (fun a pol => indexAdd a ⟨t.Name, pol⟩ w)
      (t.IngressPolicies.foldl (fun a pol => indexAdd a ⟨t.Name, pol⟩ w) polIdx)) k
      = if tierDeclares t k then some (setAdd ((polIdx k).getD setNew) w) else polIdx k := by
  rw [foldl_indexAdd_apply, foldl_indexAdd_apply]
  by_cases hT : k.Tier = t.Name
  · by_cases hI : k.Name ∈ t.IngressPolicies <;> by_cases hE : k.Name ∈ t.EgressPolicies <;>
      simp [exists_mkPolicy_eq, tierDeclares, hT, hI, hE, setAdd_setAdd]
  · simp [exists_mkPolicy_eq, tierDeclares, hT]

theorem attachLoop_cons (w : WorkloadEndpointID) (pids : List String) (t : TierInfo)
    (rest : List TierInfo) (polIdx : PolicyID → Option WESet)
    (profIdx : ProfileID → Option WESet) :
    attachLoop w pids (t :: rest) polIdx profIdx
      = attachLoop w pids rest
          (t.EgressPolicies.foldl (fun a pol => indexAdd a ⟨t.Name, pol⟩ w)
            (t.IngressPolicies.foldl (fun a pol => indexAdd a ⟨t.Name, pol⟩ w) polIdx))
          (pids.foldl (fun a profName => indexAdd a ⟨profName⟩ w) profIdx) := rfl

theorem attachLoop_fst_apply (w : WorkloadEndpointID) (pids : List String) :
    ∀ (tiers : List TierInfo) (polIdx : PolicyID → Option WESet)
      (profIdx : ProfileID → Option WESet) (k : PolicyID),
    (attachLoop w pids tiers polIdx profIdx).1 k
      = if (∃ t ∈ tiers, tierDeclares t k)
        then some (setAdd ((polIdx k).getD setNew) w) else polIdx k
  | [], polIdx, profIdx, k => by simp [attachLoop]
  | t :: rest, polIdx, profIdx, k => by
      rw [attachLoop_cons, attachLoop_fst_apply w pids rest, attachTierPolicies_apply]
      by_cases h1 : tierDeclares t k <;> by_cases h2 : ∃ x ∈ rest, tierDeclares x k <;>
        simp [h1, h2, setAdd_setAdd]

theorem attachLoop_snd_apply (w : WorkloadEndpointID) (pids : List String) :
    ∀ (tiers : List TierInfo) (polIdx : PolicyID → Option WESet)
      (profIdx : ProfileID → Option WESet) (q : ProfileID),
    (attachLoop w pids tiers polIdx profIdx).2 q
      = if tiers ≠ [] ∧ q.Name ∈ pids
        then some (setAdd ((profIdx q).getD setNew) w) else profIdx q
  | [], polIdx, profIdx, q => by simp [attachLoop]
  | t :: rest, polIdx, profIdx, q => by
      rw [attachLoop_cons, attachLoop_snd_apply w pids rest, foldl_indexAdd_apply]
      by_cases h1 : q.Name ∈ pids
      · by_cases h2 : rest = [] <;> simp [exists_mkProfile_eq, h1, h2, setAdd_setAdd]
      · simp [exists_mkProfile_eq, h1]

theorem upd_wlEps (m : bpfEndpointManager) (wlID : WorkloadEndpointID)
    (wl : WorkloadEndpoint) :
    (onWorkloadEndpointUpdate m wlID wl).wlEps
      = fun x => if x = wlID then some wl else m.wlEps x := rfl

theorem upd_policies (m : bpfEndpointManager) (wlID : WorkloadEndpointID)
    (wl : WorkloadEndpoint) :
    (onWorkloadEndpointUpdate m wlID wl).policies = m.policies := rfl

theorem upd_profiles (m : bpfEndpointManager) (wlID : WorkloadEndpointID)
    (wl : WorkloadEndpoint) :
    (onWorkloadEndpointUpdate m wlID wl).profiles = m.profiles := rfl

theorem upd_dirty (m : bpfEndpointManager) (wlID : WorkloadEndpointID)
    (wl : WorkloadEndpoint) :
    (onWorkloadEndpointUpdate m wlID wl).dirtyWorkloads
      = setAdd m.dirtyWorkloads wlID := rfl

theorem upd_pol_apply_nocache {m : bpfEndpointManager} {wlID : WorkloadEndpointID}
    (wl : WorkloadEndpoint) (h : m.wlEps wlID = none) (k : PolicyID) :
    (onWorkloadEndpointUpdate m wlID wl).policiesToWorkloads k
      = if (∃ t ∈ wl.Tiers, tierDeclares t k)
        then some (setAdd ((m.policiesToWorkloads k).getD setNew) wlID)
        else m.policiesToWorkloads k := by
  unfold onWorkloadEndpointUpdate
  rw [h]
  exact attachLoop_fst_apply wlID wl.ProfileIds wl.Tiers _ _ k

theorem upd_pol_apply_cache {m : bpfEndpointManager} {wlID : WorkloadEndpointID}
    {oldWL : WorkloadEndpoint} (wl : WorkloadEndpoint)
    (h : m.wlEps wlID = some oldWL) (k : PolicyID) :
    (onWorkloadEndpointUpdate m wlID wl).policiesToWorkloads k
      = if (∃ t ∈ wl.Tiers, tierDeclares t k)
        then some (setAdd ((detachPolicyEdges wlID oldWL.Tiers m.policiesToWorkloads k).getD setNew) wlID)
        else detachPolicyEdges wlID oldWL.Tiers m.policiesToWorkloads k := by
  unfold onWorkloadEndpointUpdate
  rw [h]
  exact attachLoop_fst_apply wlID wl.ProfileIds wl.Tiers _ _ k

theorem upd_prof_apply_nocache {m : bpfEndpointManager} {wlID : WorkloadEndpointID}
    (wl : WorkloadEndpoint) (h : m.wlEps wlID = none) (q : ProfileID) :
    (onWorkloadEndpointUpdate m wlID wl).profilesToWorkloads q
      = if wl.Tiers ≠ [] ∧ q.Name ∈ wl.ProfileIds
        then some (setAdd ((m.profilesToWorkloads q).getD setNew) wlID)
        else m.profilesToWorkloads q := by
  unfold onWorkloadEndpointUpdate
  rw [h]
  exact attachLoop_snd_apply wlID wl.ProfileIds wl.Tiers _ _ q

theorem upd_prof_apply_cache {m : bpfEndpointManager} {wlID : WorkloadEndpointID}
    {oldWL : WorkloadEndpoint} (wl : WorkloadEndpoint)
    (h : m.wlEps wlID = some oldWL) (q : ProfileID) :
    (onWorkloadEndpointUpdate m wlID wl).profilesToWorkloads q
      = if wl.Tiers ≠ [] ∧ q.Name ∈ wl.ProfileIds
        then some (setAdd ((detachProfileEdges wlID oldWL.ProfileIds m.profilesToWorkloads q).getD setNew) wlID)
        else detachProfileEdges wlID oldWL.ProfileIds m.profilesToWorkloads q := by
  unfold onWorkloadEndpointUpdate
  rw [h]
  exact attachLoop_snd_apply wlID wl.ProfileIds wl.Tiers _ _ q

theorem rem_eq_none_iff (m : bpfEndpointManager) (wlID : WorkloadEndpointID) :
    onWorkloadEnpdointRemove m wlID = none ↔ m.wlEps wlID = none := by
  unfold onWorkloadEnpdointRemove
  cases h : m.wlEps wlID <;> simp

theorem rem_eq_some {m : bpfEndpointManager} {wlID : WorkloadEndpointID}
    {wl : WorkloadEndpoint} (h : m.wlEps wlID = some wl) :
    onWorkloadEnpdointRemove m wlID
      = some { m with
          policiesToWorkloads := detachPolicyEdges wlID wl.Tiers m.policiesToWorkloads
          wlEps := fun x => if x = wlID then none else m.wlEps x
          dirtyWorkloads := setAdd m.dirtyWorkloads wlID } := by
  unfold onWorkloadEnpdointRemove
  rw [h]

theorem idxMem_upd_pol_nocache {m : bpfEndpointManager} {wlID : WorkloadEndpointID}
    (wl : WorkloadEndpoint) (h : m.wlEps wlID = none) (k : PolicyID)
    (e : WorkloadEndpointID) :
    idxMem (onWorkloadEndpointUpdate m wlID wl).policiesToWorkloads k e
      = if (∃ t ∈ wl.Tiers, tierDeclares t k) ∧ e = wlID then true
        else idxMem m.policiesToWorkloads k e := by
  rw [idxMem, upd_pol_apply_nocache wl h k]
  by_cases hNew : ∃ t ∈ wl.Tiers, tierDeclares t k <;>
    by_cases he : e = wlID <;>
    cases hk : m.policiesToWorkloads k <;>
    simp [idxMem, hNew, he, hk, setAdd, setNew]

theorem idxMem_upd_pol_cache {m : bpfEndpointManager} {wlID : WorkloadEndpointID}
    {oldWL : WorkloadEndpoint} (wl : WorkloadEndpoint)
    (h : m.wlEps wlID = some oldWL) (k : PolicyID) (e : WorkloadEndpointID) :
    idxMem (onWorkloadEndpointUpdate m wlID wl).policiesToWorkloads k e
      = if (∃ t ∈ wl.Tiers, tierDeclares t k) ∧ e = wlID then true
        else if (∃ t ∈ oldWL.Tiers, tierDeclares t k) ∧ e = wlID then false
        else idxMem m.policiesToWorkloads k e := by
  rw [idxMem, upd_pol_apply_cache wl h k]
  by_cases hNew : ∃ t ∈ wl.Tiers, tierDeclares t k <;>
    by_cases hOld : ∃ t ∈ oldWL.Tiers, tierDeclares t k <;>
    by_cases he : e = wlID <;>
    cases hk : m.policiesToWorkloads k <;>
    simp [idxMem, detachPolicyEdges_apply, hNew, hOld, he, hk, setAdd, setDiscard, setNew]

theorem idxMem_upd_prof_nocache {m : bpfEndpointManager} {wlID : WorkloadEndpointID}
    (wl : WorkloadEndpoint) (h : m.wlEps wlID = none) (q : ProfileID)
    (e : WorkloadEndpointID) :
    idxMem (onWorkloadEndpointUpdate m wlID wl).profilesToWorkloads q e
      = if (wl.Tiers ≠ [] ∧ q.Name ∈ wl.ProfileIds) ∧ e = wlID then true
        else idxMem m.profilesToWorkloads q e := by
  rw [idxMem, upd_prof_apply_nocache wl h q]
  by_cases hNew : wl.Tiers ≠ [] ∧ q.Name ∈ wl.ProfileIds <;>
    by_cases he : e = wlID <;>
    cases hk : m.profilesToWorkloads q <;>
    simp [idxMem, hNew, he, hk, setAdd, setNew]

theorem idxMem_upd_prof_cache {m : bpfEndpointManager} {wlID : WorkloadEndpointID}
    {oldWL : WorkloadEndpoint} (wl : WorkloadEndpoint)
    (h : m.wlEps wlID = some oldWL) (q : ProfileID) (e : WorkloadEndpointID) :
    idxMem (onWorkloadEndpointUpdate m wlID wl).profilesToWorkloads q e
      = if (wl.Tiers ≠ [] ∧ q.Name ∈ wl.ProfileIds) ∧ e = wlID then true
        else if q.Name ∈ oldWL.ProfileIds ∧ e = wlID then false
        else idxMem m.profilesToWorkloads q e := by
  rw [idxMem, upd_prof_apply_cache wl h q]
  by_cases hNew : wl.Tiers ≠ [] ∧ q.Name ∈ wl.ProfileIds <;>
    by_cases hOld : q.Name ∈ oldWL.ProfileIds <;>
    by_cases he : e = wlID <;>
    cases hk : m.profilesToWorkloads q <;>
    simp [idxMem, detachProfileEdges_apply, hNew, hOld, he, hk, setAdd, setDiscard, setNew]

theorem idxMem_rem_pol {m m2 : bpfEndpointManager} {wlID : WorkloadEndpointID}
    {wl : WorkloadEndpoint} (h : m.wlEps wlID = some wl)
    (h2 : onWorkloadEnpdointRemove m wlID = some m2) (k : PolicyID)
    (e : WorkloadEndpointID) :
    idxMem m2.policiesToWorkloads k e
      = if (∃ t ∈ wl.Tiers, tierDeclares t k) ∧ e = wlID then false
        else idxMem m.policiesToWorkloads k e := by
  rw [rem_eq_some h] at h2
  cases h2
  simp only [idxMem, detachPolicyEdges_apply]
  by_cases hOld : ∃ t ∈ wl.Tiers, tierDeclares t k <;>
    by_cases he : e = wlID <;>
    cases hk : m.policiesToWorkloads k <;>
    simp [hOld, he, hk, setDiscard]

theorem markPolicyUsersDirty_fields (m : bpfEndpointManager) (id : PolicyID) :
    (markPolicyUsersDirty m id).wlEps = m.wlEps
      ∧ (markPolicyUsersDirty m id).policiesToWorkloads = m.policiesToWorkloads
      ∧ (markPolicyUsersDirty m id).profilesToWorkloads = m.profilesToWorkloads := by
  unfold markPolicyUsersDirty
  cases m.policiesToWorkloads id <;> exact ⟨rfl, rfl, rfl⟩

theorem markProfileUsersDirty_fields (m : bpfEndpointManager) (id : ProfileID) :
    (markProfileUsersDirty m id).wlEps = m.wlEps
      ∧ (markProfileUsersDirty m id).policiesToWorkloads = m.policiesToWorkloads
      ∧ (markProfileUsersDirty m id).profilesToWorkloads = m.profilesToWorkloads := by
  unfold markProfileUsersDirty
  cases m.profilesToWorkloads id <;> exact ⟨rfl, rfl, rfl⟩

theorem onPolicyUpdate_fields (m : bpfEndpointManager) (id : PolicyID) (p : Policy) :
    (onPolicyUpdate m id p).wlEps = m.wlEps
      ∧ (onPolicyUpdate m id p).policiesToWorkloads = m.policiesToWorkloads
      ∧ (onPolicyUpdate m id p).profilesToWorkloads = m.profilesToWorkloads := by
  unfold onPolicyUpdate
  exact markPolicyUsersDirty_fields _ _

theorem onPolicyRemove_fields (m : bpfEndpointManager) (id : PolicyID) :
    (onPolicyRemove m id).wlEps = m.wlEps
      ∧ (onPolicyRemove m id).profilesToWorkloads = m.profilesToWorkloads := by
  unfold onPolicyRemove
  obtain ⟨h1, _, h3⟩ := markPolicyUsersDirty_fields m id
  exact ⟨h1, h3⟩

theorem onProfileUpdate_fields (m : bpfEndpointManager) (id : ProfileID) (p : Profile) :
    (onProfileUpdate m id p).wlEps = m.wlEps
      ∧ (onProfileUpdate m id p).policiesToWorkloads = m.policiesToWorkloads
      ∧ (onProfileUpdate m id p).profilesToWorkloads = m.profilesToWorkloads := by
  unfold onProfileUpdate
  exact markProfileUsersDirty_fields _ _

theorem onProfileRemove_fields (m : bpfEndpointManager) (id : ProfileID) :
    (onProfileRemove m id).wlEps = m.wlEps
      ∧ (onProfileRemove m id).policiesToWorkloads = m.policiesToWorkloads := by
  unfold onProfileRemove
  obtain ⟨h1, h2, _⟩ := markProfileUsersDirty_fields m id
  exact ⟨h1, h2⟩

/-- The policy-half correctness property of the reverse index: a
policy's index set contains exactly the endpoints whose currently
cached version references the policy in some tier. -/
def PolIndexCorrect (m : bpfEndpointManager) : Prop :=
  ∀ (k : PolicyID) (e : WorkloadEndpointID),
    idxMem m.policiesToWorkloads k e = true
      ↔ ∃ wl, m.wlEps e = some wl ∧ wepRefsPolicy wl k

/-- The profile-half correctness property actually maintained by the
source: a profile's index set contains exactly the endpoints whose
currently cached version lists the profile AND has a nonempty tier list
(the attach loop for profiles is nested inside the tier loop, so an
endpoint without tiers is never indexed). -/
def ProfIndexCorrect (m : bpfEndpointManager) : Prop :=
  ∀ (q : ProfileID) (e : WorkloadEndpointID),
    idxMem m.profilesToWorkloads q e = true
      ↔ ∃ wl, m.wlEps e = some wl ∧ q.Name ∈ wl.ProfileIds ∧ wl.Tiers ≠ []

theorem polInv_congr {m m2 : bpfEndpointManager} (h1 : m2.wlEps = m.wlEps)
    (h2 : m2.policiesToWorkloads = m.policiesToWorkloads)
    (hInv : PolIndexCorrect m) : PolIndexCorrect m2 := by
  intro k e
  rw [h1, h2]
  exact hInv k e

theorem profInv_congr {m m2 : bpfEndpointManager} (h1 : m2.wlEps = m.wlEps)
    (h2 : m2.profilesToWorkloads = m.profilesToWorkloads)
    (hInv : ProfIndexCorrect m) : ProfIndexCorrect m2 := by
  intro q e
  rw [h1, h2]
  exact hInv q e

theorem polInv_upd {m : bpfEndpointManager} (wlID : WorkloadEndpointID)
    (wl : WorkloadEndpoint) (hInv : PolIndexCorrect m) :
    PolIndexCorrect (onWorkloadEndpointUpdate m wlID wl) := by
  intro k e
  have hm := hInv k e
  simp only [upd_wlEps]
  cases h : m.wlEps wlID with
  | none =>
      rw [idxMem_upd_pol_nocache wl h k e]
      by_cases he : e = wlID <;> by_cases hNew : ∃ t ∈ wl.Tiers, tierDeclares t k <;>
        simp_all [wepRefsPolicy]
  | some oldWL =>
      rw [idxMem_upd_pol_cache wl h k e]
      by_cases he : e = wlID <;> by_cases hNew : ∃ t ∈ wl.Tiers, tierDeclares t k <;>
        by_cases hOld : ∃ t ∈ oldWL.Tiers, tierDeclares t k <;>
        simp_all [wepRefsPolicy]

theorem polInv_rem {m m2 : bpfEndpointManager} {wlID : WorkloadEndpointID}
    (hInv : PolIndexCorrect m)
    (h2 : onWorkloadEnpdointRemove m wlID = some m2) : PolIndexCorrect m2 := by
  cases h : m.wlEps wlID with
  | none =>
      rw [(rem_eq_none_iff m wlID).2 h] at h2
      exact Option.noConfusion h2
  | some wl =>
      rw [rem_eq_some h] at h2
      cases h2
      intro k e
      have hm := hInv k e
      rw [idxMem_rem_pol h (rem_eq_some h) k e]
      by_cases he : e = wlID <;> by_cases hOld : ∃ t ∈ wl.Tiers, tierDeclares t k <;>
        simp_all [wepRefsPolicy]

theorem profInv_upd {m : bpfEndpointManager} (wlID : WorkloadEndpointID)
    (wl : WorkloadEndpoint) (hInv : ProfIndexCorrect m) :
    ProfIndexCorrect (onWorkloadEndpointUpdate m wlID wl) := by
  intro q e
  have hm := hInv q e
  simp only [upd_wlEps]
  cases h : m.wlEps wlID with
  | none =>
      rw [idxMem_upd_prof_nocache wl h q e]
      by_cases he : e = wlID <;>
        by_cases hNew : wl.Tiers ≠ [] ∧ q.Name ∈ wl.ProfileIds <;>
        simp_all [and_comm]
  | some oldWL =>
      rw [idxMem_upd_prof_cache wl h q e]
      by_cases he : e = wlID <;>
        by_cases hNew : wl.Tiers ≠ [] ∧ q.Name ∈ wl.ProfileIds <;>
        by_cases hOld : q.Name ∈ oldWL.ProfileIds <;>
        simp_all [and_comm]

theorem polInv_init : PolIndexCorrect newBPFEndpointManager := by
  intro k e
  simp [idxMem, newBPFEndpointManager]

theorem profInv_init : ProfIndexCorrect newBPFEndpointManager := by
  intro q e
  simp [idxMem, newBPFEndpointManager]

theorem run_polInv :
    ∀ (msgs : List Msg) (m m2 : bpfEndpointManager),
    (∀ msg ∈ msgs, isPolRemove msg = false) → PolIndexCorrect m →
    run m msgs = some m2 → PolIndexCorrect m2
  | [], m, m2, _, hInv, hrun => by
      cases hrun
      exact hInv
  | msg :: rest, m, m2, hno, hInv, hrun => by
      have hnoRest : ∀ x ∈ rest, isPolRemove x = false :=
        fun x hx => hno x (List.mem_cons_of_mem _ hx)
      cases msg with
      | wepUpdate id ep =>
          simp only [run, step] at hrun
          exact run_polInv rest _ m2 hnoRest (polInv_upd id ep hInv) hrun
      | wepRemove id =>
          simp only [run, step] at hrun
          cases h2 : onWorkloadEnpdointRemove m id with
          | none =>
              rw [h2] at hrun
              exact Option.noConfusion hrun
          | some mr =>
              rw [h2] at hrun
              exact run_polInv rest mr m2 hnoRest (polInv_rem hInv h2) hrun
      | polUpdate id policy =>
          simp only [run, step] at hrun
          exact run_polInv rest _ m2 hnoRest
            (polInv_congr (onPolicyUpdate_fields m id policy).1
              (onPolicyUpdate_fields m id policy).2.1 hInv) hrun
      | polRemove id =>
          have := hno (Msg.polRemove id) (List.mem_cons_self _ _)
          simp [isPolRemove] at this
      | profUpdate id profile =>
          simp only [run, step] at hrun
          exact run_polInv rest _ m2 hnoRest
            (polInv_congr (onProfileUpdate_fields m id profile).1
              (onProfileUpdate_fields m id profile).2.1 hInv) hrun
      | profRemove id =>
          simp only [run, step] at hrun
          exact run_polInv rest _ m2 hnoRest
            (polInv_congr (onProfileRemove_fields m id).1
              (onProfileRemove_fields m id).2 hInv) hrun

theorem run_profInv :
    ∀ (msgs : List Msg) (m m2 : bpfEndpointManager),
    (∀ msg ∈ msgs, isProfRemove msg = false ∧ isWepRemove msg = false) →
    ProfIndexCorrect m → run m msgs = some m2 → ProfIndexCorrect m2
  | [], m, m2, _, hInv, hrun => by
      cases hrun
      exact hInv
  | msg :: rest, m, m2, hno, hInv, hrun => by
      have hnoRest : ∀ x ∈ rest, isProfRemove x = false ∧ isWepRemove x = false :=
        fun x hx => hno x (List.mem_cons_of_mem _ hx)
      cases msg with
      | wepUpdate id ep =>
          simp only [run, step] at hrun
          exact run_profInv rest _ m2 hnoRest (profInv_upd id ep hInv) hrun
      | wepRemove id =>
          have := (hno (Msg.wepRemove id) (List.mem_cons_self _ _)).2
          simp [isWepRemove] at this
      | polUpdate id policy =>
          simp only [run, step] at hrun
          exact run_profInv rest _ m2 hnoRest
            (profInv_congr (onPolicyUpdate_fields m id policy).1
              (onPolicyUpdate_fields m id policy).2.2 hInv) hrun
      | polRemove id =>
          simp only [run, step] at hrun
          exact run_profInv rest _ m2 hnoRest
            (profInv_congr (onPolicyRemove_fields m id).1
              (onPolicyRemove_fields m id).2 hInv) hrun
      | profUpdate id profile =>
          simp only [run, step] at hrun
          exact run_profInv rest _ m2 hnoRest
            (profInv_congr (onProfileUpdate_fields m id profile).1
              (onProfileUpdate_fields m id profile).2.2 hInv) hrun
      | profRemove id =>
          have := (hno (Msg.profRemove id) (List.mem_cons_self _ _)).1
          simp [isProfRemove] at this

theorem upd_pol_mem_new (m : bpfEndpointManager) (wlID : WorkloadEndpointID)
    {wl : WorkloadEndpoint} {k : PolicyID}
    (hNew : ∃ t ∈ wl.Tiers, tierDeclares t k) :
    ∃ S, (onWorkloadEndpointUpdate m wlID wl).policiesToWorkloads k = some S
      ∧ S wlID = true := by
  cases h0 : m.wlEps wlID with
  | none =>
      rw [upd_pol_apply_nocache wl h0 k, if_pos hNew]
      exact ⟨_, rfl, by simp [setAdd]⟩
  | some oldWL =>
      rw [upd_pol_apply_cache wl h0 k, if_pos hNew]
      exact ⟨_, rfl, by simp [setAdd]⟩

theorem upd_prof_mem_new (m : bpfEndpointManager) (wlID : WorkloadEndpointID)
    {wl : WorkloadEndpoint} {q : ProfileID}
    (hNew : wl.Tiers ≠ [] ∧ q.Name ∈ wl.ProfileIds) :
    ∃ S, (onWorkloadEndpointUpdate m wlID wl).profilesToWorkloads q = some S
      ∧ S wlID = true := by
  cases h0 : m.wlEps wlID with
  | none =>
      rw [upd_prof_apply_nocache wl h0 q, if_pos hNew]
      exact ⟨_, rfl, by simp [setAdd]⟩
  | some oldWL =>
      rw [upd_prof_apply_cache wl h0 q, if_pos hNew]
      exact ⟨_, rfl, by simp [setAdd]⟩

theorem mapM'_option_eq_none {α β : Type} (f : α → Option β) :
    ∀ (l : List α) (x : α), x ∈ l → f x = none → List.mapM' f l = none
  | a :: l, x, hx, hfx => by
      rcases List.mem_cons.mp hx with h | h
      · subst h
        simp [List.mapM'_cons, hfx]
      · cases hfa : f a with
        | none => simp [List.mapM'_cons, hfa]
        | some b => simp [List.mapM'_cons, hfa, mapM'_option_eq_none f l x h hfx]

theorem mapM_option_eq_none {α β : Type} (f : α → Option β) (l : List α) (x : α)
    (hx : x ∈ l) (hfx : f x = none) : l.mapM f = none := by
  rw [← List.mapM'_eq_mapM]
  exact mapM'_option_eq_none f l x hx hfx

theorem extractRules_eq (m : bpfEndpointManager) (tiers2 : List TierInfo)
    (profileNames : List String) (direction : PolDirection) :
    extractRules m tiers2 profileNames direction
      = match extractTiersRules m tiers2 direction,
          extractProfileRules m profileNames direction with
        | some allRules, some profs => some (allRules ++ [profs])
        | _, _ => none := by
  unfold extractRules
  cases extractTiersRules m tiers2 direction <;>
    cases extractProfileRules m profileNames direction <;> rfl

theorem extractTiersRules_all_empty (m : bpfEndpointManager)
    (direction : PolDirection) :
    ∀ (tiers2 : List TierInfo), (∀ t ∈ tiers2, directionalPolicies t direction = []) →
    extractTiersRules m tiers2 direction = some []
  | [], _ => rfl
  | t :: rest, h => by
      have ht := h t (List.mem_cons_self _ _)
      unfold extractTiersRules
      rw [ht]
      exact extractTiersRules_all_empty m direction rest
        (fun x hx => h x (List.mem_cons_of_mem _ hx))

theorem extractTiersRules_missing (m : bpfEndpointManager)
    (direction : PolDirection) (tier : TierInfo) (polName : String)
    (hPol : polName ∈ directionalPolicies tier direction)
    (hMissing : m.policies ⟨tier.Name, polName⟩ = none) :
    ∀ (tiers2 : List TierInfo), tier ∈ tiers2 →
    extractTiersRules m tiers2 direction = none
  | t :: rest, hTier => by
      rcases List.mem_cons.mp hTier with h | h
      · subst h
        have hne : (directionalPolicies tier direction).isEmpty = false := by
          cases hd : directionalPolicies tier direction with
          | nil => rw [hd] at hPol; cases hPol
          | cons a l => rfl
        have hTR : extractTierRules m tier direction = none := by
          unfold extractTierRules
          exact mapM_option_eq_none _ _ polName hPol (by rw [hMissing]; rfl)
        unfold extractTiersRules
        rw [hne, hTR]
        simp
      · have hrest := extractTiersRules_missing m direction tier polName hPol
          hMissing rest h
        unfold extractTiersRules
        rw [hrest]
        cases (directionalPolicies t direction).isEmpty <;>
          cases extractTierRules m t direction <;> simp

/-- C1: for every endpoint kind in {Workload, Host, Tunnel} and every
to-or-from value in {From, To}, the section name is
`calico_<from-or-to>_<kind>_ep`, and the flags bound to that section by
the startup table are exactly workload/from = 0, workload/to = 2,
host/from = 3, host/to = 1, tunnel/from = 7, tunnel/to = 5, with flag
bit values HOSTEP = 1, INGRESS = 2, TUNNEL = 4, CGROUP = 8. -/
theorem c1_section_names_and_flags :
    CompileFlagHostEp = 1 ∧ CompileFlagIngress = 2
      ∧ CompileFlagTunnel = 4 ∧ CompileFlagCgroup = 8
      ∧ BPFSectionName EpTypeWorkload FromEp = "calico_from_workload_ep"
      ∧ BPFSectionName EpTypeWorkload ToEp = "calico_to_workload_ep"
      ∧ BPFSectionName EpTypeHost FromEp = "calico_from_host_ep"
      ∧ BPFSectionName EpTypeHost ToEp = "calico_to_host_ep"
      ∧ BPFSectionName EpTypeTunnel FromEp = "calico_from_tunnel_ep"
      ∧ BPFSectionName EpTypeTunnel ToEp = "calico_to_tunnel_ep"
      ∧ BPFSectionToFlags (BPFSectionName EpTypeWorkload FromEp) = some 0
      ∧ BPFSectionToFlags (BPFSectionName EpTypeWorkload ToEp) = some 2
      ∧ BPFSectionToFlags (BPFSectionName EpTypeHost FromEp) = some 3
      ∧ BPFSectionToFlags (BPFSectionName EpTypeHost ToEp) = some 1
      ∧ BPFSectionToFlags (BPFSectionName EpTypeTunnel FromEp) = some 7
      ∧ BPFSectionToFlags (BPFSectionName EpTypeTunnel ToEp) = some 5 := by
  decide

/-- C2: for every interface name and policy direction, the attach-point
calculator selects the hook opposite to the policy direction for
workload endpoints and equal to the policy direction for host and
tunnel endpoints, and the section is built from the to-or-from value
that is `FromEp` exactly when the selected hook is ingress. -/
theorem c2_attach_point_hook (ifaceName : String) (d : PolDirection) :
    (calculateTCAttachPoint EpTypeWorkload d ifaceName).Hook
        = (if d = PolDirnIngress then TCHookEgress else TCHookIngress)
      ∧ (calculateTCAttachPoint EpTypeHost d ifaceName).Hook
        = (if d = PolDirnIngress then TCHookIngress else TCHookEgress)
      ∧ (calculateTCAttachPoint EpTypeTunnel d ifaceName).Hook
        = (if d = PolDirnIngress then TCHookIngress else TCHookEgress)
      ∧ ∀ k : EndpointType,
          (calculateTCAttachPoint k d ifaceName).Section
            = BPFSectionName k
                (if (calculateTCAttachPoint k d ifaceName).Hook = TCHookIngress
                 then FromEp else ToEp) := by
  refine ⟨?_, ?_, ?_, ?_⟩
  · cases d <;> rfl
  · cases d <;> rfl
  · cases d <;> rfl
  · intro k
    cases k <;> cases d <;> rfl

/-- C10: the workload-endpoint remove handler is total exactly when the
id has a cached endpoint: an absent id makes the handler dereference
the missing (nil) endpoint while ranging over its tiers, so it crashes
(`none`) instead of performing a no-op. -/
theorem c10_remove_unknown_id_crashes (m : bpfEndpointManager)
    (id : WorkloadEndpointID) :
    onWorkloadEnpdointRemove m id = none ↔ m.wlEps id = none := by
  unfold onWorkloadEnpdointRemove
  cases h : m.wlEps id <;> simp

/-- C9: an attach attempt whose tc output contains the
interface-not-found indication returns success (`none`), so the
reconcile result pass drops the interface from the dirty set; any other
tc failure returns the error, and an interface with a recorded error
stays dirty exactly when it was dirty. -/
theorem c9_attach_not_found_clears_dirty (out : List Char)
    (dirty : List String) (errs : String → Option AttachError) (iface : String) :
    (AttachTCProgram true out = none ↔ cannotFindDevice.IsInfix out)
      ∧ (errs iface = none → iface ∉ applyDirtyResultPass dirty errs)
      ∧ ((errs iface).isSome →
          (iface ∈ applyDirtyResultPass dirty errs ↔ iface ∈ dirty)) := by
  refine ⟨?_, ?_, ?_⟩
  · unfold AttachTCProgram
    by_cases h : cannotFindDevice.IsInfix out <;> simp [h]
  · intro h
    simp [applyDirtyResultPass, List.mem_filter, h]
  · intro h
    simp [applyDirtyResultPass, List.mem_filter, h]

/-- Witness for C9 at a concrete tc failure whose output contains
"Cannot find device", and a concrete dirty set. -/
theorem c9_witness :
    AttachTCProgram true ("exec failed: Cannot find device eth0".data) = none
      ∧ "eth0" ∉ applyDirtyResultPass ["eth0"] (fun _ => none) :=
  ⟨(c9_attach_not_found_clears_dirty
      ("exec failed: Cannot find device eth0".data) ["eth0"] (fun _ => none)
      "eth0").1.mpr (by decide),
   (c9_attach_not_found_clears_dirty
      ("exec failed: Cannot find device eth0".data) ["eth0"] (fun _ => none)
      "eth0").2.1 rfl⟩

/-- C7: for an endpoint all of whose tiers have an empty directional
policy-name list, the extractor omits every tier and returns a tree
whose only element is the synthetic profiles tier: one entry per
profile name, in order, each entry the profile's directional rule
list (the whole extraction fails only if some profile is itself
absent from the cache). -/
theorem c7_empty_tiers_only_profiles (m : bpfEndpointManager)
    (tiers2 : List TierInfo) (profileNames : List String)
    (direction : PolDirection)
    (h : ∀ t ∈ tiers2, directionalPolicies t direction = []) :
    extractRules m tiers2 profileNames direction
      = (profileNames.mapM (fun profName =>
            (m.profiles ⟨profName⟩).map (fun prof =>
              if direction = PolDirnIngress then prof.InboundRules
              else prof.OutboundRules))).map
          (fun profs => [profs]) := by
  have hswap : extractProfileRules m profileNames direction
      = profileNames.mapM (fun profName =>
          (m.profiles ⟨profName⟩).map (fun prof =>
            if direction = PolDirnIngress then prof.InboundRules
            else prof.OutboundRules)) := rfl
  rw [extractRules_eq, extractTiersRules_all_empty m direction tiers2 h, ← hswap]
  cases hP : extractProfileRules m profileNames direction <;> simp

/-- Witness for C7: two tiers whose ingress lists are empty, one cached
profile; extraction yields exactly the singleton profiles tier. -/
theorem c7_witness :
    extractRules
        { newBPFEndpointManager with
          profiles := fun k =>
            if k = ⟨"profA"⟩ then some ⟨[⟨"Allow"⟩], [⟨"Deny"⟩]⟩ else none }
        [⟨"tierA", [], ["egA"]⟩, ⟨"tierB", [], []⟩] ["profA"] PolDirnIngress
      = (["profA"].mapM (fun profName =>
            (({ newBPFEndpointManager with
                profiles := fun k =>
                  if k = ⟨"profA"⟩ then some ⟨[⟨"Allow"⟩], [⟨"Deny"⟩]⟩
                  else none } : bpfEndpointManager).profiles ⟨profName⟩).map
              (fun prof =>
                if PolDirnIngress = PolDirnIngress then prof.InboundRules
                else prof.OutboundRules))).map
          (fun profs => [profs]) :=
  c7_empty_tiers_only_profiles _ _ _ _ (by decide)

/-- C8 (counterexample to the claim as stated): extracting for an
endpoint whose tier references a policy absent from the policy cache
does not produce a tree with a null sub-list — the nil-pointer
dereference of the absent policy aborts the extraction (a Go panic,
`none` in the model). -/
theorem c8_counterexample :
    extractRules newBPFEndpointManager [⟨"tierA", ["polX"], []⟩] []
      PolDirnIngress = none := by
  decide

/-- C8 (amended): whenever some tier of the endpoint references, in the
directional policy list being extracted, a policy id absent from the
policy cache, the extractor panics (returns `none`) instead of
producing a tree. -/
theorem c8_missing_policy_panics (m : bpfEndpointManager)
    (tiers2 : List TierInfo) (profileNames : List String)
    (direction : PolDirection) (tier : TierInfo) (polName : String)
    (hTier : tier ∈ tiers2)
    (hPol : polName ∈ directionalPolicies tier direction)
    (hMissing : m.policies ⟨tier.Name, polName⟩ = none) :
    extractRules m tiers2 profileNames direction = none := by
  rw [extractRules_eq,
    extractTiersRules_missing m direction tier polName hPol hMissing tiers2 hTier]

/-- Witness for C8 (amended): a two-tier endpoint whose second tier
references a missing policy while the first tier's policy is cached. -/
theorem c8_witness :
    extractRules
        { newBPFEndpointManager with
          policies := fun k =>
            if k = ⟨"tierA", "polA"⟩ then some ⟨[⟨"Allow"⟩], []⟩ else none }
        [⟨"tierA", ["polA"], []⟩, ⟨"tierB", ["polMissing"], []⟩] ["profA"]
        PolDirnIngress = none :=
  c8_missing_policy_panics _ _ _ _ ⟨"tierB", ["polMissing"], []⟩ "polMissing"
    (by decide) (by decide) (by decide)

/-- C4 (counterexample to the claim as stated): after caching an
endpoint that declares profile "profA" (and has a tier, so the profile
edge was indexed) and then removing it, the endpoint id is still a
member of the profile's reverse-index set — the remove handler does
not mirror the profile part of the detach sub-step. -/
theorem c4_counterexample :
    (run newBPFEndpointManager
        [Msg.wepUpdate ⟨"k8s", "wl1", "ep1"⟩
            ⟨"cali1", [⟨"tierA", ["polX"], []⟩], ["profA"]⟩,
         Msg.wepRemove ⟨"k8s", "wl1", "ep1"⟩]).map
      (fun m => (idxMem m.profilesToWorkloads ⟨"profA"⟩ ⟨"k8s", "wl1", "ep1"⟩,
                 (m.wlEps ⟨"k8s", "wl1", "ep1"⟩).isSome))
      = some (true, false) := by
  decide

/-- C4 (amended): for a remove whose id has a cached prior version, the
handler removes the id from the reverse-index set of every
(tier, policy) edge declared by the prior version, erases the endpoint
from the cache and marks it dirty — but it leaves the profile reverse
index entirely unchanged (profile edges are not detached). -/
theorem c4_remove_detaches_policy_edges_only (m : bpfEndpointManager)
    (wlID : WorkloadEndpointID) (wl : WorkloadEndpoint)
    (h : m.wlEps wlID = some wl) :
    ∃ m2, onWorkloadEnpdointRemove m wlID = some m2
      ∧ m2.wlEps wlID = none
      ∧ (∀ k : PolicyID, (∃ t ∈ wl.Tiers, tierDeclares t k) →
          idxMem m2.policiesToWorkloads k wlID = false)
      ∧ m2.profilesToWorkloads = m.profilesToWorkloads
      ∧ m2.dirtyWorkloads wlID = true := by
  refine ⟨_, rem_eq_some h, ?_, ?_, rfl, ?_⟩
  · simp
  · intro k hk
    rw [idxMem_rem_pol h (rem_eq_some h) k wlID]
    simp [hk]
  · simp [setAdd]

/-- Witness for C4 (amended) at a concrete cached endpoint. -/
theorem c4_witness :
    ∃ m2, onWorkloadEnpdointRemove
        (onWorkloadEndpointUpdate newBPFEndpointManager ⟨"k8s", "wl2", "ep2"⟩
          ⟨"cali2", [⟨"tierA", ["polX"], ["polY"]⟩], ["profB"]⟩)
        ⟨"k8s", "wl2", "ep2"⟩ = some m2
      ∧ m2.wlEps ⟨"k8s", "wl2", "ep2"⟩ = none
      ∧ (∀ k : PolicyID,
          (∃ t ∈ (⟨"cali2", [⟨"tierA", ["polX"], ["polY"]⟩], ["profB"]⟩ :
              WorkloadEndpoint).Tiers, tierDeclares t k) →
          idxMem m2.policiesToWorkloads k ⟨"k8s", "wl2", "ep2"⟩ = false)
      ∧ m2.profilesToWorkloads
          = (onWorkloadEndpointUpdate newBPFEndpointManager ⟨"k8s", "wl2", "ep2"⟩
              ⟨"cali2", [⟨"tierA", ["polX"], ["polY"]⟩], ["profB"]⟩).profilesToWorkloads
      ∧ m2.dirtyWorkloads ⟨"k8s", "wl2", "ep2"⟩ = true :=
  c4_remove_detaches_policy_edges_only _ _ _ (by decide)

/-- C5 (counterexample to the claim as stated): from the reachable
state left by caching an endpoint (one tier, profile "profA") and then
removing it — which strands the id in the profile index — applying the
same update (now with no tiers) once leaves the stale profile
membership, while applying it twice discards it: the reverse indices
differ between one and two applications. -/
theorem c5_counterexample :
    (run newBPFEndpointManager
        [Msg.wepUpdate ⟨"k8s", "wl1", "ep1"⟩
            ⟨"cali1", [⟨"tierA", ["polX"], []⟩], ["profA"]⟩,
         Msg.wepRemove ⟨"k8s", "wl1", "ep1"⟩]).map
      (fun m =>
        (idxMem (onWorkloadEndpointUpdate m ⟨"k8s", "wl1", "ep1"⟩
            ⟨"cali1", [], ["profA"]⟩).profilesToWorkloads
          ⟨"profA"⟩ ⟨"k8s", "wl1", "ep1"⟩,
         idxMem (onWorkloadEndpointUpdate
            (onWorkloadEndpointUpdate m ⟨"k8s", "wl1", "ep1"⟩
              ⟨"cali1", [], ["profA"]⟩)
            ⟨"k8s", "wl1", "ep1"⟩
            ⟨"cali1", [], ["profA"]⟩).profilesToWorkloads
          ⟨"profA"⟩ ⟨"k8s", "wl1", "ep1"⟩))
      = some (true, false) := by
  decide

/-- C5 (amended): applying the same workload-endpoint update twice
yields an endpoint cache and a policy reverse index identical to
applying it once, from every manager state; the profile reverse index
is also identical provided the update's endpoint has a nonempty tier
list or lists no profiles (otherwise the second application can
discard a stale profile membership that the first one left behind). -/
theorem c5_update_idempotent (m : bpfEndpointManager)
    (wlID : WorkloadEndpointID) (wl : WorkloadEndpoint) :
    (onWorkloadEndpointUpdate (onWorkloadEndpointUpdate m wlID wl) wlID wl).wlEps
        = (onWorkloadEndpointUpdate m wlID wl).wlEps
      ∧ (onWorkloadEndpointUpdate (onWorkloadEndpointUpdate m wlID wl) wlID
            wl).policiesToWorkloads
        = (onWorkloadEndpointUpdate m wlID wl).policiesToWorkloads
      ∧ (wl.Tiers ≠ [] ∨ wl.ProfileIds = [] →
          (onWorkloadEndpointUpdate (onWorkloadEndpointUpdate m wlID wl) wlID
              wl).profilesToWorkloads
            = (onWorkloadEndpointUpdate m wlID wl).profilesToWorkloads) := by
  have hs1 : (onWorkloadEndpointUpdate m wlID wl).wlEps wlID = some wl := by
    simp [upd_wlEps]
  refine ⟨?_, ?_, ?_⟩
  · funext x
    by_cases hx : x = wlID
    · subst hx; simp [upd_wlEps]
    · simp [upd_wlEps, hx]
  · funext k
    rw [upd_pol_apply_cache wl hs1 k, detachPolicyEdges_apply]
    by_cases hNew : ∃ t ∈ wl.Tiers, tierDeclares t k
    · obtain ⟨S, hS, hSw⟩ := upd_pol_mem_new m wlID hNew
      rw [if_pos hNew, if_pos hNew, hS]
      simp [setAdd_setDiscard, setAdd_of_mem hSw]
    · rw [if_neg hNew, if_neg hNew]
  · intro hcond
    funext q
    rw [upd_prof_apply_cache wl hs1 q, detachProfileEdges_apply]
    by_cases hq : q.Name ∈ wl.ProfileIds
    · have hT : wl.Tiers ≠ [] := by
        rcases hcond with h | h
        · exact h
        · rw [h] at hq; cases hq
      have hNew : wl.Tiers ≠ [] ∧ q.Name ∈ wl.ProfileIds := ⟨hT, hq⟩
      obtain ⟨S, hS, hSw⟩ := upd_prof_mem_new m wlID hNew
      rw [if_pos hNew, if_pos hq, hS]
      simp [setAdd_setDiscard, setAdd_of_mem hSw]
    · have hnc : ¬(wl.Tiers ≠ [] ∧ q.Name ∈ wl.ProfileIds) := fun hc => hq hc.2
      rw [if_neg hnc, if_neg hq]

/-- Witness for C5 (amended) at a concrete endpoint with a nonempty
tier list. -/
theorem c5_witness :
    (onWorkloadEndpointUpdate
        (onWorkloadEndpointUpdate newBPFEndpointManager ⟨"k8s", "wl3", "ep3"⟩
          ⟨"cali3", [⟨"tierA", ["polX"], []⟩], ["profC"]⟩)
        ⟨"k8s", "wl3", "ep3"⟩
        ⟨"cali3", [⟨"tierA", ["polX"], []⟩], ["profC"]⟩).profilesToWorkloads
      = (onWorkloadEndpointUpdate newBPFEndpointManager ⟨"k8s", "wl3", "ep3"⟩
          ⟨"cali3", [⟨"tierA", ["polX"], []⟩], ["profC"]⟩).profilesToWorkloads :=
  (c5_update_idempotent _ _ _).2.2 (by decide)

/-- C6: starting from the state reached by a workload-endpoint update,
applying the matching remove (which succeeds, since the update cached
the endpoint) and then the same update again restores the endpoint
cache and both reverse indices to the post-update state. -/
theorem c6_remove_then_update_restores (m : bpfEndpointManager)
    (wlID : WorkloadEndpointID) (wl : WorkloadEndpoint) :
    ∃ m2,
      onWorkloadEnpdointRemove (onWorkloadEndpointUpdate m wlID wl) wlID = some m2
      ∧ (onWorkloadEndpointUpdate m2 wlID wl).wlEps
          = (onWorkloadEndpointUpdate m wlID wl).wlEps
      ∧ (onWorkloadEndpointUpdate m2 wlID wl).policiesToWorkloads
          = (onWorkloadEndpointUpdate m wlID wl).policiesToWorkloads
      ∧ (onWorkloadEndpointUpdate m2 wlID wl).profilesToWorkloads
          = (onWorkloadEndpointUpdate m wlID wl).profilesToWorkloads := by
  have hs1 : (onWorkloadEndpointUpdate m wlID wl).wlEps wlID = some wl := by
    simp [upd_wlEps]
  refine ⟨_, rem_eq_some hs1, ?_, ?_, ?_⟩
  all_goals
    have hm2 : ({ (onWorkloadEndpointUpdate m wlID wl) with
        policiesToWorkloads := detachPolicyEdges wlID wl.Tiers
          (onWorkloadEndpointUpdate m wlID wl).policiesToWorkloads
        wlEps := fun x => if x = wlID then none
          else (onWorkloadEndpointUpdate m wlID wl).wlEps x
        dirtyWorkloads := setAdd
          (onWorkloadEndpointUpdate m wlID wl).dirtyWorkloads wlID } :
        bpfEndpointManager).wlEps wlID = none := by simp
  · funext x
    by_cases hx : x = wlID
    · subst hx; simp [upd_wlEps]
    · simp [upd_wlEps, hx]
  · funext k
    rw [upd_pol_apply_nocache wl hm2 k]
    dsimp only
    rw [detachPolicyEdges_apply]
    by_cases hNew : ∃ t ∈ wl.Tiers, tierDeclares t k
    · obtain ⟨S, hS, hSw⟩ := upd_pol_mem_new m wlID hNew
      rw [if_pos hNew, if_pos hNew, hS]
      simp [setAdd_setDiscard, setAdd_of_mem hSw]
    · rw [if_neg hNew, if_neg hNew]
  · funext q
    rw [upd_prof_apply_nocache wl hm2 q]
    dsimp only
    by_cases hNew : wl.Tiers ≠ [] ∧ q.Name ∈ wl.ProfileIds
    · obtain ⟨S, hS, hSw⟩ := upd_prof_mem_new m wlID hNew
      rw [if_pos hNew, hS]
      simp [setAdd_of_mem hSw]
    · rw [if_neg hNew]

/-- C3 (counterexample to the claim as stated): after the single
dispatcher update caching an endpoint with an empty tier list and
profile "profA", the cached endpoint lists "profA" but the profile
reverse index does not contain the endpoint (the profile-attach loop is
nested inside the tier loop, so it never runs): the index does not
equal the set of endpoints whose cached version lists the profile. -/
theorem c3_counterexample :
    (run newBPFEndpointManager
        [Msg.wepUpdate ⟨"k8s", "wl1", "ep1"⟩ ⟨"cali1", [], ["profA"]⟩]).map
      (fun m => (idxMem m.profilesToWorkloads ⟨"profA"⟩ ⟨"k8s", "wl1", "ep1"⟩,
                 (m.wlEps ⟨"k8s", "wl1", "ep1"⟩).map WorkloadEndpoint.ProfileIds))
      = some (false, some ["profA"]) := by
  decide

/-- C3 (amended): after any finite sequence of dispatcher updates from
the initial manager, (a) if the sequence contains no policy removes,
`policiesToWorkloads[p]` contains exactly the endpoint ids whose
currently cached endpoint references `p` in some tier's ingress or
egress policy list; and (b) if the sequence contains no profile removes
and no workload-endpoint removes, `profilesToWorkloads[q]` contains
exactly the endpoint ids whose currently cached endpoint lists `q`
among its profile ids AND has a nonempty tier list. -/
theorem c3_reverse_index_invariant (msgs : List Msg) (m : bpfEndpointManager)
    (hrun : run newBPFEndpointManager msgs = some m) :
    ((∀ msg ∈ msgs, isPolRemove msg = false) → PolIndexCorrect m)
      ∧ ((∀ msg ∈ msgs, isProfRemove msg = false ∧ isWepRemove msg = false) →
          ProfIndexCorrect m) :=
  ⟨fun hno => run_polInv msgs newBPFEndpointManager m hno polInv_init hrun,
   fun hno => run_profInv msgs newBPFEndpointManager m hno profInv_init hrun⟩

/-- Witness for C3 (amended) on a concrete two-message sequence
(endpoint upsert followed by a policy upsert). -/
theorem c3_witness :
    idxMem
        (onPolicyUpdate
          (onWorkloadEndpointUpdate newBPFEndpointManager ⟨"k8s", "wl1", "ep1"⟩
            ⟨"cali1", [⟨"tierA", ["polX"], []⟩], ["profA"]⟩)
          ⟨"tierA", "polX"⟩ ⟨[⟨"Allow"⟩], []⟩).policiesToWorkloads
        ⟨"tierA", "polX"⟩ ⟨"k8s", "wl1", "ep1"⟩ = true
      ↔ ∃ wl,
          (onPolicyUpdate
            (onWorkloadEndpointUpdate newBPFEndpointManager ⟨"k8s", "wl1", "ep1"⟩
              ⟨"cali1", [⟨"tierA", ["polX"], []⟩], ["profA"]⟩)
            ⟨"tierA", "polX"⟩ ⟨[⟨"Allow"⟩], []⟩).wlEps ⟨"k8s", "wl1", "ep1"⟩
            = some wl
          ∧ wepRefsPolicy wl ⟨"tierA", "polX"⟩ :=
  ((c3_reverse_index_invariant
      [Msg.wepUpdate ⟨"k8s", "wl1", "ep1"⟩
          ⟨"cali1", [⟨"tierA", ["polX"], []⟩], ["profA"]⟩,
       Msg.polUpdate ⟨"tierA", "polX"⟩ ⟨[⟨"Allow"⟩], []⟩]
      _ rfl).1 (by decide)) ⟨"tierA", "polX"⟩ ⟨"k8s", "wl1", "ep1"⟩
